import Mathlib

/-!
Verification development for the scam-detection OCR repository.

Python strings are modelled as `List Char` (`PyStr`).  Machine floats occur in
the source only as confidence scores and threshold comparisons; they are
modelled as `ℚ` (a totally ordered field, adequate because the code only
compares and stores them).  External capabilities (the easyocr recognition
engine, OpenCV, langdetect, arabic_reshaper/bidi) are modelled as explicit
parameters: availability flags, per-region recognition outcomes, and abstract
text transforms.  Everything the repository itself computes (filtering,
sorting, assembly, cleaning, regex field extraction, digit normalization,
padding/clamping, the numpy preprocessing fallback) is translated directly
from the source.
-/

/-- Python strings are modelled as lists of characters. -/
abbrev PyStr := List Char

/-- Character class of Python regex `\s` / `str.isspace` for the `str` flavour:
ASCII whitespace plus the Unicode whitespace code points Python treats as
space (file separators, NEL, NBSP, ogham space, the U+2000 block, line and
paragraph separators, narrow/medium spaces, ideographic space). -/
def isPySpace (c : Char) : Bool :=
  c = ' ' || c = '\t' || c = '\n' || c.toNat = 11 || c.toNat = 12 || c = '\r' ||
  c.toNat = 28 || c.toNat = 29 || c.toNat = 30 || c.toNat = 31 ||
  c.toNat = 133 || c.toNat = 160 || c.toNat = 0x1680 ||
  (0x2000 ≤ c.toNat && c.toNat ≤ 0x200A) ||
  c.toNat = 0x2028 || c.toNat = 0x2029 || c.toNat = 0x202F ||
  c.toNat = 0x205F || c.toNat = 0x3000

/-- Character class of Python regex `\d` (Unicode decimal digits), restricted
to the scripts this repository handles: ASCII digits, Arabic-Indic digits
U+0660–U+0669 and Extended Arabic-Indic (Urdu) digits U+06F0–U+06F9. -/
def isPyDigit (c : Char) : Bool :=
  c.isDigit || (0x660 ≤ c.toNat && c.toNat ≤ 0x669) ||
  (0x6F0 ≤ c.toNat && c.toNat ≤ 0x6F9)

/-! ### urdu_support.py -/

/-- Translation table applied per character by `urdu_support.normalize_digits`
(`src/urdu_support.py` lines 4–12).  The Python dict `ARABIC_INDIC_DIGITS`
maps the ten Arabic-Indic and the ten Extended Arabic-Indic digit code points
to ASCII digits; `str.translate` applies it character-wise, leaving every
other character unchanged. -/
def digMap (c : Char) : Char :=
  if c = '٠' then '0' else if c = '١' then '1' else if c = '٢' then '2' else
  if c = '٣' then '3' else if c = '٤' then '4' else if c = '٥' then '5' else
  if c = '٦' then '6' else if c = '٧' then '7' else if c = '٨' then '8' else
  if c = '٩' then '9' else
  if c = '۰' then '0' else if c = '۱' then '1' else if c = '۲' then '2' else
  if c = '۳' then '3' else if c = '۴' then '4' else if c = '۵' then '5' else
  if c = '۶' then '6' else if c = '۷' then '7' else if c = '۸' then '8' else
  if c = '۹' then '9' else c

/-- Model of `urdu_support.normalize_digits` (`src/urdu_support.py` line 11):
`text.translate(ARABIC_INDIC_DIGITS)`. -/
def normalize_digits (s : PyStr) : PyStr := s.map digMap

/-! ### Whitespace collapsing and stripping (ocr_utils.py) -/

/-- Worker for `collapseWs`; the flag records whether the previous character
belonged to a whitespace run already replaced by a single space. -/
def collapseWsAux : Bool → PyStr → PyStr
  | _, [] => []
  | prevSp, c :: t =>
    if isPySpace c then
      if prevSp then collapseWsAux true t else ' ' :: collapseWsAux true t
    else c :: collapseWsAux false t

/-- Model of `re.sub(r"\s+", " ", text)` as used in `src/ocr_utils.py`
lines 43, 157, 212 and 259: every maximal run of whitespace characters is
replaced by a single ASCII space. -/
def collapseWs (s : PyStr) : PyStr := collapseWsAux false s

/-- Model of Python `str.lstrip()` restricted to whitespace. -/
def lstripPy (s : PyStr) : PyStr := s.dropWhile isPySpace

/-- Model of Python `str.rstrip()` restricted to whitespace. -/
def rstripPy (s : PyStr) : PyStr := (s.reverse.dropWhile isPySpace).reverse

/-- Model of Python `str.strip()` with no arguments (remove leading and
trailing whitespace). -/
def stripPy (s : PyStr) : PyStr := rstripPy (lstripPy s)

/-- Worker for `subNonAscii`; the flag records whether the previous character
belonged to a non-ASCII run already replaced by a single space. -/
def subNonAsciiAux : Bool → PyStr → PyStr
  | _, [] => []
  | prevHi, c :: t =>
    if 128 ≤ c.toNat then
      if prevHi then subNonAsciiAux true t else ' ' :: subNonAsciiAux true t
    else c :: subNonAsciiAux false t

/-- Model of `re.sub(r"[^\x00-\x7F]+", " ", text)` (`src/ocr_utils.py`
line 44): every maximal run of non-ASCII characters is replaced by a single
space. -/
def subNonAscii (s : PyStr) : PyStr := subNonAsciiAux false s

/-- Model of `ocr_utils.clean_text` (`src/ocr_utils.py` lines 39–45).  The
NFKC normalization step (`unicodedata.normalize("NFKC", text)`) calls an
external Unicode library and is taken as a parameter `nfkc`; the remaining
steps (whitespace collapse, non-ASCII replacement, strip) are translated
directly.  `none` models a `None` argument, returned as the empty string. -/
def clean_text (nfkc : PyStr → PyStr) : Option PyStr → PyStr
  | none => []
  | some s => stripPy (subNonAscii (collapseWs (nfkc s)))

/-! ### Python regex `findall` for the four field patterns (ocr_utils.py) -/

/-- Character class `[\d\s\-]` of the phone pattern. -/
def phoneClassChar (c : Char) : Bool := isPyDigit c || isPySpace c || c = '-'

/-- Matcher for `\d[\d\s\-]{5,}` (the phone pattern after the optional plus)
at the start of the input; returns the match and the remaining input. -/
def phoneCore : PyStr → Option (PyStr × PyStr)
  | [] => none
  | d :: rest =>
    if isPyDigit d then
      let run := rest.takeWhile phoneClassChar
      if 5 ≤ run.length then some (d :: run, rest.drop run.length) else none
    else none

/-- Matcher for the phone pattern `\+?\d[\d\s\-]{5,}` (`src/ocr_utils.py`
lines 74, 159, 272) at the start of the input.  The optional `\+?` is greedy:
a leading plus is consumed first, and on failure the engine retries with the
plus unconsumed (which then fails at `\d`, kept for fidelity). -/
def matchPhone (s : PyStr) : Option (PyStr × PyStr) :=
  match s with
  | '+' :: rest =>
    match phoneCore rest with
    | some (m, r) => some ('+' :: m, r)
    | none => phoneCore s
  | _ => phoneCore s

/-- Character class `[a-zA-Z0-9._+-]` of the email local part
(`src/ocr_utils.py` lines 75 and 160). -/
def localChar (c : Char) : Bool :=
  c.isAlpha || c.isDigit || c = '.' || c = '_' || c = '+' || c = '-'

/-- Character class `[A-Za-z0-9._%+-]` of the email local part in the Urdu
pipeline (`src/ocr_utils.py` line 273); it additionally allows `%`. -/
def localCharU (c : Char) : Bool := localChar c || c = '%'

/-- Character class `[a-zA-Z0-9.-]` of the email domain part. -/
def domainChar (c : Char) : Bool := c.isAlpha || c.isDigit || c = '.' || c = '-'

/-- Attempt for the email tail `\.[a-zA-Z]{2,}` after the greedy
`[a-zA-Z0-9.-]+` has been backtracked to consume exactly `k` characters. -/
def matchDomainAt (t : PyStr) (k : Nat) : Option (PyStr × PyStr) :=
  match t.drop k with
  | '.' :: rest2 =>
    let als := rest2.takeWhile Char.isAlpha
    if 2 ≤ als.length then some (t.take k ++ '.' :: als, rest2.drop als.length)
    else none
  | _ => none

/-- Backtracking loop of the greedy `[a-zA-Z0-9.-]+\.[a-zA-Z]{2,}`: the
plus-quantifier first consumes its maximal run and then gives characters
back one at a time (down to one character, as `+` requires). -/
def matchDomainDown (t : PyStr) : Nat → Option (PyStr × PyStr)
  | 0 => none
  | k + 1 =>
    match matchDomainAt t (k + 1) with
    | some res => some res
    | none => matchDomainDown t k

/-- Matcher for the email pattern `[local]+@[a-zA-Z0-9.-]+\.[a-zA-Z]{2,}` at
the start of the input, parametrized by the local-part class.  Since `@` is
not in the local class, the greedy local run admits exactly one split. -/
def matchEmailWith (localCls : Char → Bool) (s : PyStr) : Option (PyStr × PyStr) :=
  let loc := s.takeWhile localCls
  if loc.isEmpty then none
  else
    match s.drop loc.length with
    | '@' :: t =>
      match matchDomainDown t (t.takeWhile domainChar).length with
      | some (m, r) => some (loc ++ '@' :: m, r)
      | none => none
    | _ => none

/-- Matcher for the URL tail `://\S+` after `http` or `https`. -/
def tryHttpTail (t : PyStr) : Option (PyStr × PyStr) :=
  match t with
  | ':' :: '/' :: '/' :: r =>
    let run := r.takeWhile (fun c => !isPySpace c)
    if run.isEmpty then none
    else some (':' :: '/' :: '/' :: run, r.drop run.length)
  | _ => none

/-- Matcher for the URL pattern `(https?://\S+|www\.\S+)` (`src/ocr_utils.py`
lines 76, 161, 274) at the start of the input.  The alternation tries the
`http` branch first (with the greedy optional `s`), then the `www.` branch;
`re.findall` returns the capture group, which here equals the whole match. -/
def matchUrl (s : PyStr) : Option (PyStr × PyStr) :=
  match s with
  | 'h' :: 't' :: 't' :: 'p' :: rest =>
    (match rest with
     | 's' :: r2 =>
       match tryHttpTail r2 with
       | some (m, r) => some ('h' :: 't' :: 't' :: 'p' :: 's' :: m, r)
       | none =>
         match tryHttpTail rest with
         | some (m, r) => some ('h' :: 't' :: 't' :: 'p' :: m, r)
         | none => none
     | _ =>
       match tryHttpTail rest with
       | some (m, r) => some ('h' :: 't' :: 't' :: 'p' :: m, r)
       | none => none)
  | 'w' :: 'w' :: 'w' :: '.' :: rest =>
    let run := rest.takeWhile (fun c => !isPySpace c)
    if run.isEmpty then none
    else some ('w' :: 'w' :: 'w' :: '.' :: run, rest.drop run.length)
  | _ => none

/-- Matcher for the amount tail `\s?\d[\d,]*` after the currency marker; the
optional whitespace is greedy with a one-step backtrack. -/
def amountTail (t : PyStr) : Option (PyStr × PyStr) :=
  let core : PyStr → Option (PyStr × PyStr) := fun u =>
    match u with
    | d :: r =>
      if isPyDigit d then
        let run := r.takeWhile (fun c => isPyDigit c || c = ',')
        some (d :: run, r.drop run.length)
      else none
    | [] => none
  match t with
  | c :: r =>
    if isPySpace c then
      match core r with
      | some (m, rr) => some (c :: m, rr)
      | none => core t
    else core t
  | [] => none

/-- Matcher for the amount pattern `(?:Rs\.?|INR|\$)\s?\d[\d,]*`
(`src/ocr_utils.py` lines 77, 162, 275) at the start of the input.  The
alternation tries `Rs\.?` (dot greedy), then `INR`, then `\$`. -/
def matchAmount (s : PyStr) : Option (PyStr × PyStr) :=
  match s with
  | 'R' :: 's' :: rest =>
    (match rest with
     | '.' :: r2 =>
       match amountTail r2 with
       | some (m, r) => some ('R' :: 's' :: '.' :: m, r)
       | none =>
         match amountTail rest with
         | some (m, r) => some ('R' :: 's' :: m, r)
         | none => none
     | _ =>
       match amountTail rest with
       | some (m, r) => some ('R' :: 's' :: m, r)
       | none => none)
  | 'I' :: 'N' :: 'R' :: rest =>
    (match amountTail rest with
     | some (m, r) => some ('I' :: 'N' :: 'R' :: m, r)
     | none => none)
  | '$' :: rest =>
    (match amountTail rest with
     | some (m, r) => some ('$' :: m, r)
     | none => none)
  | _ => none

/-- Scanning loop of `re.findall`: try the matcher at each position from left
to right; on a match, emit it and resume after its end; otherwise advance one
character.  The fuel argument (instantiated with the input length) makes the
recursion structural; every step shortens the input, so the fuel never runs
out on the initial call. -/
def findallAux (m : PyStr → Option (PyStr × PyStr)) : Nat → PyStr → List PyStr
  | 0, _ => []
  | _, [] => []
  | fuel + 1, s@(_ :: rest) =>
    match m s with
    | some (mt, r) => if mt.isEmpty then findallAux m fuel rest else mt :: findallAux m fuel r
    | none => findallAux m fuel rest

/-- Model of `re.findall(pattern, s)` for the non-capturing patterns above:
the list of non-overlapping matches in order of appearance. -/
def findall (m : PyStr → Option (PyStr × PyStr)) (s : PyStr) : List PyStr :=
  findallAux m s.length s

/-- Record of the extracted fields (`extracted_fields` dict of every
pipeline result in `src/ocr_utils.py`). -/
structure Fields where
  phones : List PyStr
  emails : List PyStr
  urls : List PyStr
  amounts : List PyStr
deriving DecidableEq, Repr

/-- Field extraction of the plain and WhatsApp-aware pipelines
(`src/ocr_utils.py` lines 74–77 and 159–162; the four regexes are
identical in both places). -/
def extract_fields_whatsapp (clean : PyStr) : Fields where
  phones := findall matchPhone clean
  emails := findall (matchEmailWith localChar) clean
  urls := findall matchUrl clean
  amounts := findall matchAmount clean

/-- Field extraction of the Urdu-aware pipeline (`src/ocr_utils.py` lines
272–275); only the email local-part class differs (it adds `%`). -/
def extract_fields_urdu (clean : PyStr) : Fields where
  phones := findall matchPhone clean
  emails := findall (matchEmailWith localCharU) clean
  urls := findall matchUrl clean
  amounts := findall matchAmount clean

/-! ### Stable sorting (Python `sorted`) -/

/-- Insert `x` into `l` before the first element strictly greater than `x`
(with respect to `lt`); equal elements are passed over, which gives the
stability of Python `sorted`. -/
def insertOrdered (lt : α → α → Bool) (x : α) : List α → List α
  | [] => [x]
  | y :: t => if lt x y then x :: y :: t else y :: insertOrdered lt x t

/-- Stable insertion sort modelling Python `sorted(l, key=...)`; `lt` is the
strict comparison on the sort keys. -/
def pySorted (lt : α → α → Bool) : List α → List α
  | [] => []
  | x :: t => insertOrdered lt x (pySorted lt t)

/-! ### get_reader (ocr_utils.py lines 20–36) -/

/-- Model of an `easyocr.Reader` instance: only its configured language list
(`lang_list` attribute) is observable to `get_reader`. -/
structure Reader where
  lang_list : List PyStr
deriving DecidableEq, Repr

/-- Model of `ocr_utils.DEFAULT_LANGS` (`src/ocr_utils.py` line 22). -/
def DEFAULT_LANGS : List PyStr := [('e' :: ['n'])]

/-- Model of `ocr_utils.get_reader` (`src/ocr_utils.py` lines 24–36).  The
module-global `_OCR_READER` becomes an explicit state argument; the result is
the pair (returned reader, new global state).  `easyAvail` models whether the
`easyocr` import succeeded; when it failed the function returns `None` and
leaves the state alone.  A fresh `easyocr.Reader(langs, gpu=gpu)` is modelled
as `Reader.mk langs` (construction assumed to succeed; the `except` clause
that rebuilds with `DEFAULT_LANGS` on a construction failure is outside this
model).  The rebuild test translates `set(langs) - set(_OCR_READER.lang_list)`
being non-empty, i.e. some requested language is not configured. -/
def get_reader (easyAvail : Bool) (langs : Option (List PyStr))
    (state : Option Reader) : Option Reader × Option Reader :=
  if !easyAvail then (none, state)
  else
    let ls := langs.getD DEFAULT_LANGS
    match state with
    | none => (some (Reader.mk ls), some (Reader.mk ls))
    | some r =>
      if ls.any (fun l => !(r.lang_list.contains l)) then
        (some (Reader.mk ls), some (Reader.mk ls))
      else (some r, some r)

/-! ### Image model and the pipeline loading steps (ocr_utils.py) -/

/-- Pixel array model: a 2-dimensional (single channel, `ndim == 2`) or
3-channel (`ndim == 3`) numpy array. -/
inductive PixArr where
  | gray (m : List (List Nat))
  | color (m : List (List (Nat × Nat × Nat)))
deriving DecidableEq, Repr

/-- Number of array dimensions (`ndarray.ndim`). -/
def PixArr.ndim : PixArr → Nat
  | .gray _ => 2
  | .color _ => 3

/-- Model of `cv2.cvtColor(img, cv2.COLOR_GRAY2BGR)`: replicate the single
channel three times.  The source only applies it to 2-dimensional arrays. -/
def gray2bgr : PixArr → PixArr
  | .gray m => .color (m.map (fun row => row.map (fun v => (v, v, v))))
  | .color m => .color m

/-- Model of `np.array(pil)[:, :, ::-1]`: reverse the channel order of a
decoded RGB image to BGR. -/
def rgbToBgr (m : List (List (Nat × Nat × Nat))) : List (List (Nat × Nat × Nat)) :=
  m.map (fun row => row.map (fun p => (p.2.2, p.2.1, p.1)))

/-- Input accepted by the region-aware pipelines: a file path, a decoded PIL
image, a raw numpy array, or anything else.  For the path and PIL cases the
decoded 3-channel RGB pixel content (produced by the external
`PIL.Image.open(...).convert('RGB')`) is carried as data. -/
inductive ImgInput where
  | path (decoded : List (List (Nat × Nat × Nat)))
  | pil (decoded : List (List (Nat × Nat × Nat)))
  | array (a : PixArr)
  | other
deriving DecidableEq, Repr

/-- Error kinds surfaced by the pipelines (spec §7): `unsupportedInput` is the
`ValueError("Unsupported image_input type")`, `recognitionUnavailable` is the
`RuntimeError("easyocr not available, install easyocr to use this function")`. -/
inductive PipeErr where
  | unsupportedInput
  | recognitionUnavailable
deriving DecidableEq, Repr

/-- Loading step of `extract_text_whatsapp_aware` (`src/ocr_utils.py` lines
101–114): paths and PIL images are decoded and channel-reversed to BGR; a
numpy array is copied, and a 2-dimensional array is converted to 3 channels
with `cv2.cvtColor(..., cv2.COLOR_GRAY2BGR)`; any other input raises
`ValueError`. -/
def loadImageW : ImgInput → Except PipeErr PixArr
  | .path m => .ok (.color (rgbToBgr m))
  | .pil m => .ok (.color (rgbToBgr m))
  | .array a => .ok (if a.ndim = 2 then gray2bgr a else a)
  | .other => .error .unsupportedInput

/-- Loading step of `extract_text_with_urdu_support` (`src/ocr_utils.py`
lines 184–194): identical to the WhatsApp-aware one except that a numpy
array is only copied — there is no 2-dimensional-to-3-channel conversion. -/
def loadImageU : ImgInput → Except PipeErr PixArr
  | .path m => .ok (.color (rgbToBgr m))
  | .pil m => .ok (.color (rgbToBgr m))
  | .array a => .ok a
  | .other => .error .unsupportedInput

/-! ### preprocess.py fallback path -/

/-- Shape of a pixel array: (rows, row length of the first row), matching
`ndarray.shape[:2]` for the well-formed arrays below. -/
def PixArr.shape2 : PixArr → Nat × Nat
  | .gray m => (m.length, (m.headD []).length)
  | .color m => (m.length, (m.headD []).length)

/-- Well-formedness of a pixel array as an image: at least one row, at least
one column, and all rows of equal length (numpy arrays are rectangular). -/
def PixArr.wf : PixArr → Prop
  | .gray m => 0 < m.length ∧ 0 < (m.headD []).length ∧
      ∀ row ∈ m, row.length = (m.headD []).length
  | .color m => 0 < m.length ∧ 0 < (m.headD []).length ∧
      ∀ row ∈ m, row.length = (m.headD []).length

instance : DecidablePred PixArr.wf := fun a => by
  cases a <;> (unfold PixArr.wf; infer_instance)

/-- Luminosity grayscale of one BGR/RGB pixel as computed by
`_preprocess_without_cv2`: `(0.2989*c0 + 0.5870*c1 + 0.1140*c2).astype(np.uint8)`.
The float arithmetic is modelled exactly in ℚ and the uint8 cast as a floor
(the weighted sum of channel values ≤ 255 stays below 255, so no wrap-around
occurs). -/
def lumPix (p : Nat × Nat × Nat) : Nat :=
  (2989 * p.1 + 5870 * p.2.1 + 1140 * p.2.2) / 10000

/-- Grayscale step of `_preprocess_without_cv2` (`src/preprocess.py` lines
29–39): 3-channel input goes through the luminosity combination, everything
else is taken as already grayscale. -/
def toGrayFallback : PixArr → List (List Nat)
  | .gray m => m
  | .color m => m.map (fun row => row.map lumPix)

/-- Model of `np.repeat(np.repeat(gray, 2, axis=0), 2, axis=1)`
(`src/preprocess.py` line 44): duplicate every row and every element. -/
def upscale2 (m : List (List Nat)) : List (List Nat) :=
  (m.map (fun row =>
    let r2 := (row.map (fun v => [v, v])).flatten
    [r2, r2])).flatten

/-- Model of `preprocess._preprocess_without_cv2` (`src/preprocess.py` lines
24–49): grayscale, 2× nearest-neighbour upscale when the shorter dimension is
below 400, then a global threshold at the (floored) mean intensity, pixels
strictly above the threshold becoming 255 and the rest 0.  The result is
`none` exactly when the pixel count is zero, where the Python code fails
(`int()` of the `nan` produced by `np.mean` of an empty array raises). -/
def preprocess_without_cv2 (img : PixArr) : Option (List (List Nat)) :=
  let gray := toGrayFallback img
  let h := gray.length
  let w := (gray.headD []).length
  let gray2 := if min h w < 400 then upscale2 gray else gray
  let n := (gray2.map List.length).sum
  if n = 0 then none
  else
    let s := (gray2.map List.sum).sum
    let thresh := s / n
    some (gray2.map (fun row => row.map (fun v => if thresh < v then 255 else 0)))

/-- Model of `preprocess.preprocess_image` (`src/preprocess.py` lines 52–57):
dispatch to the OpenCV implementation when that capability is present
(abstracted as a function argument), otherwise to the numpy fallback. -/
def preprocess_image (cv2Impl : Option (PixArr → List (List Nat)))
    (img : PixArr) : Option (List (List Nat)) :=
  match cv2Impl with
  | some f => some (f img)
  | none => preprocess_without_cv2 img

/-! ### region_detect.py -/

/-- Bounding rectangle of a contour as returned by `cv2.boundingRect`:
top-left corner `(x, y)`, width `w`, height `h`, all non-negative. -/
structure BRect where
  x : Nat
  y : Nat
  w : Nat
  h : Nat
deriving DecidableEq, Repr

/-- Padding and clamping step of `region_detect._detect_with_cv2`
(`src/region_detect.py` lines 24–28): pad by 2 % of the width and 5 % of the
height (floored, as Python `int()` on a non-negative float) plus 2 pixels on
each side, then clamp to the image bounds.  `max(0, ·)` is natural-number
subtraction; the tuple is `(y0, x0, y1, x1)` as in the source. -/
def padClamp (hImg wImg : Nat) (r : BRect) : Nat × Nat × Nat × Nat :=
  let padX := r.w * 2 / 100 + 2
  let padY := r.h * 5 / 100 + 2
  let x0 := r.x - padX
  let y0 := r.y - padY
  let x1 := min wImg (r.x + r.w + padX)
  let y1 := min hImg (r.y + r.h + padY)
  (y0, x0, y1, x1)

/-- Area filter of `_detect_with_cv2` (`src/region_detect.py` line 22): a
contour is kept unless its bounding-box area is below `min_area` or above
`max_area_ratio` (a rational, 0.9 by default) of the image area. -/
def keepRect (hImg wImg : Nat) (minArea : Nat) (maxRatio : ℚ) (r : BRect) : Bool :=
  let area := r.w * r.h
  !(area < minArea || (maxRatio * (wImg * hImg : Nat) < (area : Nat)))

/-- Model of `region_detect._detect_with_cv2` (`src/region_detect.py` lines
8–31) from the point where OpenCV has produced the contour bounding
rectangles (the gradient/threshold/dilate/contour steps are external OpenCV
calls, abstracted as the `rects` argument): filter by area, pad and clamp,
and sort by the top edge `y0`.  The source finally crops
`img_bgr[y0:y1, x0:x1]` for each tuple; the coordinate tuples themselves are
returned here, in the source's `(y0, x0, y1, x1)` order. -/
def detect_with_cv2 (hImg wImg : Nat) (rects : List BRect)
    (minArea : Nat := 400) (maxRatio : ℚ := 9 / 10) : List (Nat × Nat × Nat × Nat) :=
  let regions := (rects.filter (keepRect hImg wImg minArea maxRatio)).map (padClamp hImg wImg)
  pySorted (fun a b => a.1 < b.1) regions

/-! ### Recognition results and the pipeline orchestrators (ocr_utils.py) -/

/-- One raw span `(bbox, txt, conf)` as returned by
`reader.readtext(reg, detail=1)`: a bounding polygon (easyocr returns four
corner points; the first point is `(x, y)` of the top-left corner), the
recognized text, and an optional confidence (`None` maps to `none`).
Confidences are modelled in ℚ. -/
structure RawSpan where
  bbox : List (ℚ × ℚ)
  text : PyStr
  conf : Option ℚ
deriving DecidableEq, Repr

/-- Outcome of the recognition calls on one region, abstracting the external
`reader.readtext` engine: the `detail=1` call succeeded with a list of raw
spans; or it raised and the `detail=0` retry succeeded with a list of plain
strings; or both raised. -/
inductive RegionOutcome where
  | ok (spans : List RawSpan)
  | fallbackText (texts : List PyStr)
  | failed
deriving DecidableEq, Repr

/-- One entry of the `lines` list of a pipeline result: the dicts
`{"bbox": ..., "text": ..., "conf": ...}` built in `src/ocr_utils.py`
(lines 142, 151, 245, 253); `bbox` and `conf` are `None` on the reduced
`detail=0` fallback path. -/
structure OutSpan where
  bbox : Option (List (ℚ × ℚ))
  text : PyStr
  conf : Option ℚ
deriving DecidableEq, Repr

/-- Pipeline result record (the returned dict of
`extract_text_whatsapp_aware` and `extract_text_with_urdu_support`). -/
structure OCRResult where
  detected_language : Option PyStr
  raw_text : PyStr
  clean_text : PyStr
  lines : List OutSpan
  extracted_fields : Fields
deriving DecidableEq, Repr

/-- Result record of the plain pipeline `extract_text_from_image`, which has
no `detected_language` key. -/
structure SimpleResult where
  raw_text : PyStr
  clean_text : PyStr
  lines : List OutSpan
  extracted_fields : Fields
deriving DecidableEq, Repr

/-- Effective confidence `float(conf) if conf is not None else 0.0`
(`src/ocr_utils.py` lines 140 and 243). -/
def effConf (c : Option ℚ) : ℚ := c.getD 0

/-- Confidence filter of both region-aware pipelines (`src/ocr_utils.py`
lines 138–142 and 241–245): keep exactly the spans whose effective
confidence is at least `min_confidence`, rebuilt as line dicts with the
bounding box and the numeric confidence. -/
def filterSpans (minConf : ℚ) (spans : List RawSpan) : List OutSpan :=
  spans.filterMap (fun s =>
    if minConf ≤ effConf s.conf then
      some (OutSpan.mk (some s.bbox) s.text (some (effConf s.conf)))
    else none)

/-- Sort comparison of the WhatsApp-aware pipeline (`src/ocr_utils.py` line
144): spans of a region are sorted by the key
`(r['bbox'][0][1], r['bbox'][0][0])` — the top then left coordinate of the
first bounding-box point — under Python tuple (lexicographic) order.  On the
filtered path the bounding box is always present and easyocr boxes are
non-empty; `(0, 0)` is a formal default for the unreachable cases. -/
def spanKey (s : OutSpan) : ℚ × ℚ :=
  match s.bbox with
  | some (p :: _) => (p.2, p.1)
  | _ => (0, 0)

/-- Strict lexicographic comparison on sort keys, as used by the stable
Python `sorted`. -/
def spanLt (a b : OutSpan) : Bool :=
  (spanKey a).1 < (spanKey b).1 ||
  ((spanKey a).1 = (spanKey b).1 && (spanKey a).2 < (spanKey b).2)

/-- Join a list of strings with single spaces (`" ".join(...)`). -/
def joinSp (l : List PyStr) : PyStr := List.intercalate [' '] l

/-- Per-region processing of `extract_text_whatsapp_aware`
(`src/ocr_utils.py` lines 135–154): on a successful `detail=1` call, filter
by confidence and, when any span survives, sort the survivors by (top, left)
and contribute them to `lines` together with their joined text; on the
`detail=0` fallback, contribute one bbox-less, confidence-less line when the
text list is non-empty; contribute nothing when both calls failed.  The
returned pair is (lines contribution, assembled-text contribution). -/
def processRegionW (minConf : ℚ) : RegionOutcome → Option (List OutSpan × PyStr)
  | .ok spans =>
    let filtered := filterSpans minConf spans
    if filtered.isEmpty then none
    else
      let fs := pySorted spanLt filtered
      some (fs, joinSp (fs.map OutSpan.text))
  | .fallbackText texts =>
    if texts.isEmpty then none
    else some ([OutSpan.mk none (joinSp texts) none], joinSp texts)
  | .failed => none

/-- Per-region processing of `extract_text_with_urdu_support`
(`src/ocr_utils.py` lines 238–256): identical to the WhatsApp-aware one
except that the surviving spans are not sorted. -/
def processRegionU (minConf : ℚ) : RegionOutcome → Option (List OutSpan × PyStr)
  | .ok spans =>
    let filtered := filterSpans minConf spans
    if filtered.isEmpty then none
    else some (filtered, joinSp (filtered.map OutSpan.text))
  | .fallbackText texts =>
    if texts.isEmpty then none
    else some ([OutSpan.mk none (joinSp texts) none], joinSp texts)
  | .failed => none

/-- Model of `ocr_utils.extract_text_whatsapp_aware` (`src/ocr_utils.py`
lines 92–170).  `easyAvail` models whether the `easyocr` import succeeded
(`get_reader()` returns `None` exactly when it did not); `outcomes` abstracts
the external region detector plus recognition engine: one `RegionOutcome` per
processed region, in region order (when the detector returns no regions the
whole image is the single region, so `outcomes` is never empty in a real run;
no claim below depends on that).  The optional caller-supplied preprocessing
hook only influences which pixels the external engine sees, hence it is
absorbed into `outcomes`.  Loading, the availability check, confidence
filtering, per-region sorting, assembly, whitespace cleaning and field
extraction are translated directly. -/
def extract_text_whatsapp_aware (easyAvail : Bool) (input : ImgInput)
    (minConf : ℚ) (outcomes : List RegionOutcome) : Except PipeErr OCRResult :=
  match loadImageW input with
  | .error e => .error e
  | .ok _imgBgr =>
    if !easyAvail then .error .recognitionUnavailable
    else
      let contribs := outcomes.filterMap (processRegionW minConf)
      let lines := (contribs.map Prod.fst).flatten
      let rawText := joinSp (contribs.map Prod.snd)
      let clean := stripPy (collapseWs rawText)
      .ok (OCRResult.mk none rawText clean lines (extract_fields_whatsapp clean))

/-- Model of `ocr_utils.extract_text_with_urdu_support` (`src/ocr_utils.py`
lines 173–283).  Beyond the parameters of the WhatsApp-aware model:
`detectedLang` abstracts the external `langdetect` result (the source's
`detected_lang` is always a string by the time the result is built — it
defaults to `'en'` when detection is unavailable, fails, or the quick-pass
text is empty); `shapeFn` abstracts `urdu_support.shape_and_bidi`, which
wraps the external `arabic_reshaper` and `bidi` libraries and is applied to
the aggregate text and to each non-empty line text exactly when the detected
language is `'ur'`.  Digit normalization is applied unconditionally to the
cleaned text. -/
def extract_text_with_urdu_support (easyAvail : Bool) (input : ImgInput)
    (minConf : ℚ) (outcomes : List RegionOutcome) (detectedLang : PyStr)
    (shapeFn : PyStr → PyStr) : Except PipeErr OCRResult :=
  match loadImageU input with
  | .error e => .error e
  | .ok _imgBgr =>
    if !easyAvail then .error .recognitionUnavailable
    else
      let contribs := outcomes.filterMap (processRegionU minConf)
      let lines := (contribs.map Prod.fst).flatten
      let rawText := joinSp (contribs.map Prod.snd)
      let clean0 := stripPy (collapseWs rawText)
      let isUr := detectedLang = ['u', 'r']
      let clean1 := if isUr then shapeFn clean0 else clean0
      let lines1 :=
        if isUr then
          lines.map (fun l =>
            if l.text.isEmpty then l else OutSpan.mk l.bbox (shapeFn l.text) l.conf)
        else lines
      let clean2 := normalize_digits clean1
      .ok (OCRResult.mk (some detectedLang) rawText clean2 lines1
            (extract_fields_urdu clean2))

/-- Model of `ocr_utils.extract_text_from_image` (`src/ocr_utils.py` lines
48–89).  The input is a PIL image (decoded externally; its pixel content does
not influence anything the source computes internally), so it is omitted.
`easyAvail` and `tessAvail` model whether the `easyocr` and `pytesseract`
imports succeeded; `easyResults` abstracts `reader.readtext(pre, detail=1)`
(easyocr supplies a numeric confidence on this call, modelled through
`effConf`), and `tessRaw` abstracts `pytesseract.image_to_string`.  With no
usable engine the raw text is the empty string.  Cleaning uses `clean_text`
(with its external NFKC step as the `nfkc` parameter) and field extraction
uses the same four patterns as the WhatsApp-aware pipeline. -/
def extract_text_from_image (easyAvail tessAvail : Bool) (engine : PyStr)
    (easyResults : List RawSpan) (tessRaw : PyStr)
    (nfkc : PyStr → PyStr) : SimpleResult :=
  let engEasy := engine = ['e', 'a', 's', 'y', 'o', 'c', 'r']
  let engTess := engine = ['t', 'e', 's', 's', 'e', 'r', 'a', 'c', 't']
  let rawLines : PyStr × List OutSpan :=
    if engEasy && easyAvail then
      (joinSp (easyResults.map RawSpan.text),
       easyResults.map (fun r => OutSpan.mk (some r.bbox) r.text (some (effConf r.conf))))
    else if engTess && tessAvail then (tessRaw, [])
    else ([], [])
  let cleaned := clean_text nfkc (some rawLines.1)
  SimpleResult.mk rawLines.1 cleaned rawLines.2 (extract_fields_whatsapp cleaned)

/-! ### Helper lemmas -/

theorem mem_insertOrdered {α : Type} (lt : α → α → Bool) (x a : α) (l : List α) :
    a ∈ insertOrdered lt x l ↔ a = x ∨ a ∈ l := by
  induction l with
  | nil => simp [insertOrdered]
  | cons y t ih =>
    simp only [insertOrdered]
    split
    · simp
    · simp only [List.mem_cons, ih]
      tauto

theorem mem_pySorted {α : Type} (lt : α → α → Bool) (a : α) (l : List α) :
    a ∈ pySorted lt l ↔ a ∈ l := by
  induction l with
  | nil => simp [pySorted]
  | cons x t ih => simp [pySorted, mem_insertOrdered, ih]

theorem conf_of_mem_filterSpans {mc : ℚ} {spans : List RawSpan} {s : OutSpan}
    (h : s ∈ filterSpans mc spans) : ∃ c, s.conf = some c ∧ mc ≤ c := by
  simp only [filterSpans, List.mem_filterMap] at h
  obtain ⟨a, -, ha⟩ := h
  split at ha
  · cases ha
    exact ⟨effConf a.conf, rfl, by assumption⟩
  · cases ha

/-- Every line contributed by one region of the WhatsApp-aware pipeline
either passed the confidence filter (numeric confidence at least the
threshold) or came from the reduced `detail=0` retry (no confidence). -/
theorem processRegionW_conf {mc : ℚ} {o : RegionOutcome} {ls : List OutSpan}
    {txt : PyStr} (h : processRegionW mc o = some (ls, txt)) {s : OutSpan}
    (hs : s ∈ ls) : (∃ c, s.conf = some c ∧ mc ≤ c) ∨ s.conf = none := by
  cases o with
  | ok spans =>
    simp only [processRegionW] at h
    split at h
    · cases h
    · cases h
      rw [mem_pySorted] at hs
      exact Or.inl (conf_of_mem_filterSpans hs)
  | fallbackText texts =>
    simp only [processRegionW] at h
    split at h
    · cases h
    · cases h
      simp only [List.mem_singleton] at hs
      subst hs
      exact Or.inr rfl
  | failed => cases h

theorem processRegionU_conf {mc : ℚ} {o : RegionOutcome} {ls : List OutSpan}
    {txt : PyStr} (h : processRegionU mc o = some (ls, txt)) {s : OutSpan}
    (hs : s ∈ ls) : (∃ c, s.conf = some c ∧ mc ≤ c) ∨ s.conf = none := by
  cases o with
  | ok spans =>
    simp only [processRegionU] at h
    split at h
    · cases h
    · cases h
      exact Or.inl (conf_of_mem_filterSpans hs)
  | fallbackText texts =>
    simp only [processRegionU] at h
    split at h
    · cases h
    · cases h
      simp only [List.mem_singleton] at hs
      subst hs
      exact Or.inr rfl
  | failed => cases h

/-- Elimination form of a successful WhatsApp-aware pipeline run: the result
record is exactly the one assembled from the region outcomes. -/
theorem whatsapp_ok {ea : Bool} {inp : ImgInput} {mc : ℚ}
    {outs : List RegionOutcome} {r : OCRResult}
    (h : extract_text_whatsapp_aware ea inp mc outs = .ok r) :
    ea = true ∧
    r = (let contribs := outs.filterMap (processRegionW mc)
         let rawText := joinSp (contribs.map Prod.snd)
         let clean := stripPy (collapseWs rawText)
         OCRResult.mk none rawText clean ((contribs.map Prod.fst).flatten)
           (extract_fields_whatsapp clean)) := by
  unfold extract_text_whatsapp_aware at h
  cases hL : loadImageW inp with
  | error e => rw [hL] at h; cases h
  | ok img =>
    rw [hL] at h
    cases ea with
    | false => simp at h
    | true =>
      simp only [Bool.not_true, Bool.false_eq_true, if_false, Except.ok.injEq] at h
      exact ⟨rfl, h.symm⟩

/-- Elimination form of a successful Urdu-aware pipeline run. -/
theorem urdu_ok {ea : Bool} {inp : ImgInput} {mc : ℚ}
    {outs : List RegionOutcome} {dl : PyStr} {sf : PyStr → PyStr} {r : OCRResult}
    (h : extract_text_with_urdu_support ea inp mc outs dl sf = .ok r) :
    ea = true ∧
    r = (let contribs := outs.filterMap (processRegionU mc)
         let lines := (contribs.map Prod.fst).flatten
         let rawText := joinSp (contribs.map Prod.snd)
         let clean0 := stripPy (collapseWs rawText)
         let isUr := dl = ['u', 'r']
         let clean1 := if isUr then sf clean0 else clean0
         let lines1 :=
           if isUr then
             lines.map (fun l =>
               if l.text.isEmpty then l else OutSpan.mk l.bbox (sf l.text) l.conf)
           else lines
         OCRResult.mk (some dl) rawText (normalize_digits clean1) lines1
           (extract_fields_urdu (normalize_digits clean1))) := by
  unfold extract_text_with_urdu_support at h
  cases hL : loadImageU inp with
  | error e => rw [hL] at h; cases h
  | ok img =>
    rw [hL] at h
    cases ea with
    | false => simp at h
    | true =>
      simp only [Bool.not_true, Bool.false_eq_true, if_false, Except.ok.injEq] at h
      exact ⟨rfl, h.symm⟩

/-- Case analysis on the digit translation map: either the character is not a
key and is returned unchanged, or it is one of the twenty Arabic-Indic keys
and the result is an ASCII digit. -/
theorem digMap_cases (c : Char) :
    digMap c = c ∨
      (c ∈ ['\u0660', '\u0661', '\u0662', '\u0663', '\u0664', '\u0665',
            '\u0666', '\u0667', '\u0668', '\u0669', '\u06F0', '\u06F1',
            '\u06F2', '\u06F3', '\u06F4', '\u06F5', '\u06F6', '\u06F7',
            '\u06F8', '\u06F9'] ∧
       digMap c ∈ ['0', '1', '2', '3', '4', '5', '6', '7', '8', '9']) := by
  by_cases h1 : c = '\u0660'
  case pos => subst h1; decide
  by_cases h2 : c = '\u0661'
  case pos => subst h2; decide
  by_cases h3 : c = '\u0662'
  case pos => subst h3; decide
  by_cases h4 : c = '\u0663'
  case pos => subst h4; decide
  by_cases h5 : c = '\u0664'
  case pos => subst h5; decide
  by_cases h6 : c = '\u0665'
  case pos => subst h6; decide
  by_cases h7 : c = '\u0666'
  case pos => subst h7; decide
  by_cases h8 : c = '\u0667'
  case pos => subst h8; decide
  by_cases h9 : c = '\u0668'
  case pos => subst h9; decide
  by_cases h10 : c = '\u0669'
  case pos => subst h10; decide
  by_cases h11 : c = '\u06F0'
  case pos => subst h11; decide
  by_cases h12 : c = '\u06F1'
  case pos => subst h12; decide
  by_cases h13 : c = '\u06F2'
  case pos => subst h13; decide
  by_cases h14 : c = '\u06F3'
  case pos => subst h14; decide
  by_cases h15 : c = '\u06F4'
  case pos => subst h15; decide
  by_cases h16 : c = '\u06F5'
  case pos => subst h16; decide
  by_cases h17 : c = '\u06F6'
  case pos => subst h17; decide
  by_cases h18 : c = '\u06F7'
  case pos => subst h18; decide
  by_cases h19 : c = '\u06F8'
  case pos => subst h19; decide
  by_cases h20 : c = '\u06F9'
  case pos => subst h20; decide
  refine Or.inl ?_
  unfold digMap
  rw [if_neg h1, if_neg h2, if_neg h3, if_neg h4, if_neg h5, if_neg h6, if_neg h7, if_neg h8, if_neg h9, if_neg h10, if_neg h11, if_neg h12, if_neg h13, if_neg h14, if_neg h15, if_neg h16, if_neg h17, if_neg h18, if_neg h19, if_neg h20]

/-- ASCII digits are fixed points of the digit translation map. -/
theorem digMap_fix_digit :
    ∀ d ∈ ['0', '1', '2', '3', '4', '5', '6', '7', '8', '9'], digMap d = d := by
  decide

/-- Neither the keys nor the values of the digit translation map are
whitespace. -/
theorem digMap_nospace :
    (∀ d ∈ ['0', '1', '2', '3', '4', '5', '6', '7', '8', '9'],
        isPySpace d = false) ∧
      (∀ k ∈ ['\u0660', '\u0661', '\u0662', '\u0663', '\u0664', '\u0665',
              '\u0666', '\u0667', '\u0668', '\u0669', '\u06F0', '\u06F1',
              '\u06F2', '\u06F3', '\u06F4', '\u06F5', '\u06F6', '\u06F7',
              '\u06F8', '\u06F9'],
          isPySpace k = false) := by
  constructor <;> decide

/-- The digit translation map is idempotent: its outputs (ASCII digits) are
not among its keys (Arabic-Indic code points). -/
theorem digMap_idem (c : Char) : digMap (digMap c) = digMap c := by
  rcases digMap_cases c with h | ⟨-, hd⟩
  · rw [h, h]
  · exact digMap_fix_digit _ hd

/-- The digit translation map sends whitespace to whitespace and
non-whitespace to non-whitespace. -/
theorem isPySpace_digMap (c : Char) : isPySpace (digMap c) = isPySpace c := by
  rcases digMap_cases c with h | ⟨hk, hd⟩
  · rw [h]
  · rw [digMap_nospace.1 _ hd, digMap_nospace.2 _ hk]

/-! ### Claim C9 -/

/-- C9: digit normalization is idempotent — for every text `t`,
`normalize_digits (normalize_digits t) = normalize_digits t`. -/
theorem c9_normalize_digits_idempotent (t : PyStr) :
    normalize_digits (normalize_digits t) = normalize_digits t := by
  unfold normalize_digits
  rw [List.map_map]
  exact List.map_congr_left (fun c _ => digMap_idem c)

/-! ### Claim C3 -/

/-- C3: `get_reader` reuses the existing recognizer instance whenever every
requested language is already in its configured `lang_list`, and otherwise
(some requested language missing, or no instance yet) constructs and returns
a new recognizer configured for exactly the requested language list.  The
global state is returned as the second component. -/
theorem c3_reader_reuse (L : List PyStr) (r : Reader) :
    ((∀ l ∈ L, l ∈ r.lang_list) →
      get_reader true (some L) (some r) = (some r, some r)) ∧
    ((∃ l ∈ L, l ∉ r.lang_list) →
      get_reader true (some L) (some r) =
        (some (Reader.mk L), some (Reader.mk L))) ∧
    get_reader true (some L) none = (some (Reader.mk L), some (Reader.mk L)) := by
  refine ⟨?_, ?_, rfl⟩
  · intro hsub
    have hA : (L.any fun l => !(r.lang_list.contains l)) = false := by
      rw [List.any_eq_false]
      intro l hl
      have hc : r.lang_list.contains l = true := List.elem_iff.mpr (hsub l hl)
      rw [hc]
      decide
    show (if (L.any fun l => !(r.lang_list.contains l)) = true
          then ((some (Reader.mk L) : Option Reader),
                (some (Reader.mk L) : Option Reader))
          else (some r, some r)) = (some r, some r)
    rw [hA]
    rfl
  · intro ⟨l, hl, hnot⟩
    have hA : (L.any fun l => !(r.lang_list.contains l)) = true := by
      rw [List.any_eq_true]
      have hc : r.lang_list.contains l = false := by
        cases hcc : r.lang_list.contains l
        · rfl
        · exact absurd (List.elem_iff.mp hcc) hnot
      exact ⟨l, hl, by rw [hc]; rfl⟩
    show (if (L.any fun l => !(r.lang_list.contains l)) = true
          then ((some (Reader.mk L) : Option Reader),
                (some (Reader.mk L) : Option Reader))
          else (some r, some r)) =
        (some (Reader.mk L), some (Reader.mk L))
    rw [hA]
    rfl

/-- Witness for C3 at the spec's own scenario: an instance configured for
`{en}` is reused for a request of `{en}` and rebuilt for a request of
`{ur}`. -/
theorem c3_reader_reuse_witness :
    (∀ l ∈ [['e', 'n']], l ∈ (Reader.mk [['e', 'n']]).lang_list) ∧
    get_reader true (some [['e', 'n']]) (some (Reader.mk [['e', 'n']])) =
      (some (Reader.mk [['e', 'n']]), some (Reader.mk [['e', 'n']])) ∧
    (∃ l ∈ [['u', 'r']], l ∉ (Reader.mk [['e', 'n']]).lang_list) ∧
    get_reader true (some [['u', 'r']]) (some (Reader.mk [['e', 'n']])) =
      (some (Reader.mk [['u', 'r']]), some (Reader.mk [['u', 'r']])) :=
  ⟨by decide, (c3_reader_reuse _ _).1 (by decide), by decide,
    (c3_reader_reuse _ _).2.1 (by decide)⟩

/-! ### Claim C4 -/

/-- C4 counterexample: the Urdu-aware pipeline's loading step passes a
2-dimensional numpy array through unchanged (`src/ocr_utils.py` lines
191–192 only copy it), so the claim "this holds for both
extract_text_whatsapp_aware and extract_text_with_urdu_support" fails on the
Urdu-aware pipeline: a 1×1 single-channel array stays 2-dimensional. -/
theorem c4_counterexample :
    loadImageU (ImgInput.array (PixArr.gray [[0]])) =
      Except.ok (PixArr.gray [[0]]) ∧
    PixArr.ndim (PixArr.gray [[0]]) ≠ 3 :=
  ⟨rfl, by decide⟩

/-- C4 amended: the WhatsApp-aware pipeline's loading step always yields a
3-channel image (in particular it converts a 2-dimensional array via
GRAY2BGR), while the Urdu-aware pipeline's loading step returns a numpy
array input unchanged, 2-dimensional or not. -/
theorem c4_amended :
    (∀ (inp : ImgInput) (img : PixArr), loadImageW inp = .ok img → img.ndim = 3) ∧
    (∀ a : PixArr, loadImageU (ImgInput.array a) = .ok a) := by
  constructor
  · intro inp img h
    cases inp with
    | path m => cases h; rfl
    | pil m => cases h; rfl
    | array a =>
      simp only [loadImageW, Except.ok.injEq] at h
      subst h
      cases a with
      | gray m => rfl
      | color m => rfl
    | other => cases h
  · intro a
    rfl

/-- Witness for C4 amended: a 1×1 gray array is loaded by the WhatsApp-aware
pipeline as a 3-channel image. -/
theorem c4_amended_witness :
    loadImageW (ImgInput.array (PixArr.gray [[1]])) =
      Except.ok (PixArr.color [[(1, 1, 1)]]) ∧
    PixArr.ndim (PixArr.color [[(1, 1, 1)]]) = 3 :=
  ⟨rfl, c4_amended.1 (ImgInput.array (PixArr.gray [[1]])) (PixArr.color [[(1, 1, 1)]]) rfl⟩

/-! ### Claim C10 -/

/-- C10: every successful result of `extract_text_whatsapp_aware` has
`detected_language = None`; the pipeline performs no language
identification (its result dict hard-codes the key to `None`,
`src/ocr_utils.py` line 165). -/
theorem c10_whatsapp_no_language (ea : Bool) (inp : ImgInput) (mc : ℚ)
    (outs : List RegionOutcome) (r : OCRResult)
    (h : extract_text_whatsapp_aware ea inp mc outs = .ok r) :
    r.detected_language = none := by
  obtain ⟨-, hr⟩ := whatsapp_ok h
  subst hr
  rfl

/-- Witness for C10 at a concrete run with one recognized span. -/
theorem c10_whatsapp_no_language_witness :
    extract_text_whatsapp_aware true (ImgInput.pil [[(1, 2, 3)]]) 0
        [RegionOutcome.ok [RawSpan.mk [(0, 0)] ['h', 'i'] (some 1)]] =
      Except.ok (OCRResult.mk none ['h', 'i'] ['h', 'i']
        [OutSpan.mk (some [(0, 0)]) ['h', 'i'] (some 1)]
        (Fields.mk [] [] [] [])) ∧
    (OCRResult.mk none ['h', 'i'] ['h', 'i']
        [OutSpan.mk (some [(0, 0)]) ['h', 'i'] (some 1)]
        (Fields.mk [] [] [] [])).detected_language = none :=
  ⟨rfl, c10_whatsapp_no_language true (ImgInput.pil [[(1, 2, 3)]]) 0
      [RegionOutcome.ok [RawSpan.mk [(0, 0)] ['h', 'i'] (some 1)]] _ rfl⟩

/-! ### Claim C1 -/

/-- Urdu shaping of a line (`src/ocr_utils.py` lines 264–266) rewrites only
the text; the recorded confidence is untouched. -/
theorem shapeLine_conf (sf : PyStr → PyStr) (l : OutSpan) :
    (if l.text.isEmpty then l else OutSpan.mk l.bbox (sf l.text) l.conf).conf
      = l.conf := by
  split <;> rfl

/-- Every span in the assembled `lines` of the WhatsApp-aware pipeline that
carries a numeric confidence passed the filter. -/
theorem linesW_conf {mc : ℚ} {outs : List RegionOutcome} {s : OutSpan}
    (hs : s ∈ ((outs.filterMap (processRegionW mc)).map Prod.fst).flatten)
    {c : ℚ} (hc : s.conf = some c) : mc ≤ c := by
  rw [List.mem_flatten] at hs
  obtain ⟨ls, hls, hsls⟩ := hs
  rw [List.mem_map] at hls
  obtain ⟨⟨ls2, txt⟩, hmem, rfl⟩ := hls
  rw [List.mem_filterMap] at hmem
  obtain ⟨o, -, ho⟩ := hmem
  rcases processRegionW_conf ho hsls with ⟨c2, hc2, hle⟩ | hnone
  · rw [hc] at hc2
    cases hc2
    exact hle
  · rw [hc] at hnone
    cases hnone

/-- Every span in the assembled `lines` of the Urdu-aware pipeline that
carries a numeric confidence passed the filter. -/
theorem linesU_conf {mc : ℚ} {outs : List RegionOutcome} {s : OutSpan}
    (hs : s ∈ ((outs.filterMap (processRegionU mc)).map Prod.fst).flatten)
    {c : ℚ} (hc : s.conf = some c) : mc ≤ c := by
  rw [List.mem_flatten] at hs
  obtain ⟨ls, hls, hsls⟩ := hs
  rw [List.mem_map] at hls
  obtain ⟨⟨ls2, txt⟩, hmem, rfl⟩ := hls
  rw [List.mem_filterMap] at hmem
  obtain ⟨o, -, ho⟩ := hmem
  rcases processRegionU_conf ho hsls with ⟨c2, hc2, hle⟩ | hnone
  · rw [hc] at hc2
    cases hc2
    exact hle
  · rw [hc] at hnone
    cases hnone

/-- C1: confidence-filter correctness for both region-aware pipelines.  In a
successful run, every span of the returned `lines` that carries a confidence
value has confidence at least `min_confidence`, and no span carrying a
confidence below `min_confidence` appears.  (Spans produced by the reduced
`detail=0` retry carry no confidence value at all — the spec's documented
degraded mode.) -/
theorem c1_confidence_filter (ea : Bool) (inp : ImgInput) (mc : ℚ)
    (outs : List RegionOutcome) (dl : PyStr) (sf : PyStr → PyStr)
    (rW rU : OCRResult)
    (hW : extract_text_whatsapp_aware ea inp mc outs = .ok rW)
    (hU : extract_text_with_urdu_support ea inp mc outs dl sf = .ok rU) :
    ((∀ s ∈ rW.lines, ∀ c : ℚ, s.conf = some c → mc ≤ c) ∧
      ¬ ∃ s ∈ rW.lines, ∃ c : ℚ, s.conf = some c ∧ c < mc) ∧
    ((∀ s ∈ rU.lines, ∀ c : ℚ, s.conf = some c → mc ≤ c) ∧
      ¬ ∃ s ∈ rU.lines, ∃ c : ℚ, s.conf = some c ∧ c < mc) := by
  obtain ⟨-, hrW⟩ := whatsapp_ok hW
  obtain ⟨-, hrU⟩ := urdu_ok hU
  subst hrW
  subst hrU
  have keyW : ∀ s ∈ ((outs.filterMap (processRegionW mc)).map Prod.fst).flatten,
      ∀ c : ℚ, s.conf = some c → mc ≤ c := fun s hs c hc => linesW_conf hs hc
  have keyU : ∀ s ∈ ((outs.filterMap (processRegionU mc)).map Prod.fst).flatten,
      ∀ c : ℚ, s.conf = some c → mc ≤ c := fun s hs c hc => linesU_conf hs hc
  refine ⟨⟨keyW, ?_⟩, ⟨?_, ?_⟩⟩
  · rintro ⟨s, hs, c, hc, hlt⟩
    exact absurd (keyW s hs c hc) (not_le.mpr hlt)
  · intro s hs c hc
    dsimp only at hs
    split at hs
    · rw [List.mem_map] at hs
      obtain ⟨l, hl, rfl⟩ := hs
      rw [shapeLine_conf] at hc
      exact linesU_conf hl hc
    · exact linesU_conf hs hc
  · rintro ⟨s, hs, c, hc, hlt⟩
    dsimp only at hs
    split at hs
    · rw [List.mem_map] at hs
      obtain ⟨l, hl, rfl⟩ := hs
      rw [shapeLine_conf] at hc
      exact absurd (linesU_conf hl hc) (not_le.mpr hlt)
    · exact absurd (linesU_conf hs hc) (not_le.mpr hlt)

/-- Witness for C1 at a concrete run of both pipelines with one span of
confidence 1 against threshold 0. -/
theorem c1_confidence_filter_witness :
    extract_text_whatsapp_aware true (ImgInput.pil [[(1, 2, 3)]]) 0
        [RegionOutcome.ok [RawSpan.mk [(0, 0)] ['h', 'i'] (some 1)]] =
      Except.ok (OCRResult.mk none ['h', 'i'] ['h', 'i']
        [OutSpan.mk (some [(0, 0)]) ['h', 'i'] (some 1)] (Fields.mk [] [] [] [])) ∧
    extract_text_with_urdu_support true (ImgInput.pil [[(1, 2, 3)]]) 0
        [RegionOutcome.ok [RawSpan.mk [(0, 0)] ['h', 'i'] (some 1)]] ['e', 'n'] id =
      Except.ok (OCRResult.mk (some ['e', 'n']) ['h', 'i'] ['h', 'i']
        [OutSpan.mk (some [(0, 0)]) ['h', 'i'] (some 1)] (Fields.mk [] [] [] [])) ∧
    (((∀ s ∈ (OCRResult.mk none ['h', 'i'] ['h', 'i']
          [OutSpan.mk (some [(0, 0)]) ['h', 'i'] (some 1)]
          (Fields.mk [] [] [] [])).lines,
        ∀ c : ℚ, s.conf = some c → (0 : ℚ) ≤ c) ∧
      ¬ ∃ s ∈ (OCRResult.mk none ['h', 'i'] ['h', 'i']
          [OutSpan.mk (some [(0, 0)]) ['h', 'i'] (some 1)]
          (Fields.mk [] [] [] [])).lines,
        ∃ c : ℚ, s.conf = some c ∧ c < 0) ∧
     ((∀ s ∈ (OCRResult.mk (some ['e', 'n']) ['h', 'i'] ['h', 'i']
          [OutSpan.mk (some [(0, 0)]) ['h', 'i'] (some 1)]
          (Fields.mk [] [] [] [])).lines,
        ∀ c : ℚ, s.conf = some c → (0 : ℚ) ≤ c) ∧
      ¬ ∃ s ∈ (OCRResult.mk (some ['e', 'n']) ['h', 'i'] ['h', 'i']
          [OutSpan.mk (some [(0, 0)]) ['h', 'i'] (some 1)]
          (Fields.mk [] [] [] [])).lines,
        ∃ c : ℚ, s.conf = some c ∧ c < 0)) :=
  ⟨rfl, rfl,
    c1_confidence_filter true (ImgInput.pil [[(1, 2, 3)]]) 0
      [RegionOutcome.ok [RawSpan.mk [(0, 0)] ['h', 'i'] (some 1)]] ['e', 'n'] id
      _ _ rfl rfl⟩

/-! ### Claim C8 -/

/-- C8: every region produced by the detector satisfies the containment
invariant — with the source's tuple order `(top, left, bottom, right) =
(y0, x0, y1, x1)`, we have `top ≤ bottom ≤ image height` and
`left ≤ right ≤ image width` (the lower bounds `0 ≤ top`, `0 ≤ left` hold
by typing in ℕ, matching Python's `max(0, ·)`).  The hypothesis states what
`cv2.boundingRect` guarantees: contour bounding boxes lie inside the
image. -/
theorem c8_region_containment (hImg wImg : Nat) (rects : List BRect)
    (minArea : Nat) (maxRatio : ℚ)
    (hb : ∀ q ∈ rects, q.x + q.w ≤ wImg ∧ q.y + q.h ≤ hImg) :
    ∀ t ∈ detect_with_cv2 hImg wImg rects minArea maxRatio,
      t.1 ≤ t.2.2.1 ∧ t.2.2.1 ≤ hImg ∧ t.2.1 ≤ t.2.2.2 ∧ t.2.2.2 ≤ wImg := by
  intro t ht
  unfold detect_with_cv2 at ht
  rw [mem_pySorted, List.mem_map] at ht
  obtain ⟨q, hq, rfl⟩ := ht
  rw [List.mem_filter] at hq
  obtain ⟨hqm, -⟩ := hq
  obtain ⟨h1, h2⟩ := hb q hqm
  unfold padClamp
  dsimp only
  refine ⟨?_, ?_, ?_, ?_⟩ <;> omega

/-- Evaluation of the region detector on one concrete in-bounds contour
rectangle (used by the C8 witness; the area-ratio comparison involves ℚ
arithmetic that the kernel does not reduce, hence this separate lemma). -/
theorem detect_eval_example :
    detect_with_cv2 100 100 [BRect.mk 0 0 30 20] 400 1 = [(0, 0, 23, 32)] := by
  have hk : keepRect 100 100 400 1 (BRect.mk 0 0 30 20) = true := by
    unfold keepRect
    norm_num
  unfold detect_with_cv2
  simp [List.filter, hk, padClamp, pySorted, insertOrdered]

/-- Witness for C8: the concrete 30×20 rectangle at the origin of a 100×100
image is padded to `(0, 0, 23, 32)`, which satisfies the containment
bounds. -/
theorem c8_region_containment_witness :
    (∀ q ∈ [BRect.mk 0 0 30 20], q.x + q.w ≤ 100 ∧ q.y + q.h ≤ 100) ∧
    ((0, 0, 23, 32) ∈ detect_with_cv2 100 100 [BRect.mk 0 0 30 20] 400 1 ∧
      ((0 : Nat), (0 : Nat), (23 : Nat), (32 : Nat)).1 ≤ (0, 0, 23, 32).2.2.1 ∧
      ((0 : Nat), (0 : Nat), (23 : Nat), (32 : Nat)).2.2.1 ≤ 100 ∧
      ((0 : Nat), (0 : Nat), (23 : Nat), (32 : Nat)).2.1 ≤ (0, 0, 23, 32).2.2.2 ∧
      ((0 : Nat), (0 : Nat), (23 : Nat), (32 : Nat)).2.2.2 ≤ 100) := by
  refine ⟨by decide, ?_⟩
  have hm : ((0 : Nat), (0 : Nat), (23 : Nat), (32 : Nat)) ∈
      detect_with_cv2 100 100 [BRect.mk 0 0 30 20] 400 1 := by
    rw [detect_eval_example]
    exact List.mem_singleton.mpr rfl
  exact ⟨hm, c8_region_containment 100 100 [BRect.mk 0 0 30 20] 400 1
    (by decide) _ hm⟩

/-! ### Claim C7 -/

theorem rowlen_sum (m : List (List Nat)) (w : Nat)
    (hrows : ∀ r ∈ m, r.length = w) : (m.map List.length).sum = m.length * w := by
  induction m with
  | nil => simp
  | cons a t ih =>
    simp only [List.map_cons, List.sum_cons, List.length_cons]
    rw [hrows a (List.mem_cons_self a t),
      ih (fun r hr => hrows r (List.mem_cons_of_mem a hr))]
    ring

theorem doubleRow_len (row : List Nat) :
    ((row.map (fun v => [v, v])).flatten).length = 2 * row.length := by
  induction row with
  | nil => simp
  | cons a t ih =>
    simp only [List.map_cons, List.flatten_cons, List.length_append,
      List.length_cons, List.length_nil, ih]
    omega

theorem upscale2_len (m : List (List Nat)) : (upscale2 m).length = 2 * m.length := by
  unfold upscale2
  induction m with
  | nil => simp
  | cons a t ih =>
    simp only [List.map_cons, List.flatten_cons, List.length_append,
      List.length_cons, List.length_nil, List.length_cons] at ih ⊢
    omega

theorem upscale2_rows (m : List (List Nat)) (w : Nat)
    (hrows : ∀ r ∈ m, r.length = w) : ∀ r ∈ upscale2 m, r.length = 2 * w := by
  intro r hr
  unfold upscale2 at hr
  rw [List.mem_flatten] at hr
  obtain ⟨l, hl, hrl⟩ := hr
  rw [List.mem_map] at hl
  obtain ⟨row, hrow, rfl⟩ := hl
  have hr2 : r = (row.map (fun v => [v, v])).flatten := by
    simp only [List.mem_cons, List.not_mem_nil, or_false] at hrl
    rcases hrl with h | h <;> exact h
  rw [hr2, doubleRow_len, hrows row hrow]

/-- C7: when the advanced image-processing capability is absent,
`preprocess_image` on any well-formed image returns (never fails) a
binarized image — every pixel 0 or 255 — whose dimensions equal the input's,
or exactly double them when the shorter input dimension is below 400. -/
theorem c7_fallback_totality (img : PixArr) (hwf : img.wf) :
    ∃ out, preprocess_image none img = some out ∧
      (∀ row ∈ out, ∀ v ∈ row, v = 0 ∨ v = 255) ∧
      (min img.shape2.1 img.shape2.2 < 400 →
        out.length = 2 * img.shape2.1 ∧
          ∀ row ∈ out, row.length = 2 * img.shape2.2) ∧
      (¬ min img.shape2.1 img.shape2.2 < 400 →
        out.length = img.shape2.1 ∧ ∀ row ∈ out, row.length = img.shape2.2) := by
  obtain ⟨hh, hw, hrows⟩ : 0 < img.shape2.1 ∧ 0 < img.shape2.2 ∧
      ∀ row ∈ toGrayFallback img, row.length = img.shape2.2 := by
    cases img with
    | gray m => exact ⟨hwf.1, hwf.2.1, hwf.2.2⟩
    | color m =>
      refine ⟨hwf.1, hwf.2.1, ?_⟩
      intro row hr
      rw [toGrayFallback, List.mem_map] at hr
      obtain ⟨r0, hr0, rfl⟩ := hr
      rw [List.length_map]
      exact hwf.2.2 r0 hr0
  have hlen : (toGrayFallback img).length = img.shape2.1 := by
    cases img <;> simp [toGrayFallback, PixArr.shape2]
  have hhead : ((toGrayFallback img).headD []).length = img.shape2.2 := by
    cases hG : toGrayFallback img with
    | nil =>
      exfalso
      rw [hG] at hlen
      simp only [List.length_nil] at hlen
      omega
    | cons a t =>
      have : a ∈ toGrayFallback img := by rw [hG]; exact List.mem_cons_self a t
      simpa using hrows a this
  unfold preprocess_image preprocess_without_cv2
  dsimp only
  rw [hlen, hhead]
  by_cases hmin : min img.shape2.1 img.shape2.2 < 400
  · rw [if_pos hmin]
    have h2len : (upscale2 (toGrayFallback img)).length = 2 * img.shape2.1 := by
      rw [upscale2_len, hlen]
    have h2rows : ∀ r ∈ upscale2 (toGrayFallback img), r.length = 2 * img.shape2.2 :=
      upscale2_rows _ _ hrows
    have hn : ((upscale2 (toGrayFallback img)).map List.length).sum =
        2 * img.shape2.1 * (2 * img.shape2.2) := by
      rw [rowlen_sum _ _ h2rows, h2len]
    rw [hn, if_neg (by positivity)]
    refine ⟨_, rfl, ?_, ?_, ?_⟩
    · intro row hr v hv
      rw [List.mem_map] at hr
      obtain ⟨r0, -, rfl⟩ := hr
      rw [List.mem_map] at hv
      obtain ⟨v0, -, rfl⟩ := hv
      split <;> simp
    · intro _
      constructor
      · rw [List.length_map, h2len]
      · intro row hr
        rw [List.mem_map] at hr
        obtain ⟨r0, hr0, rfl⟩ := hr
        rw [List.length_map]
        exact h2rows r0 hr0
    · intro hc
      exact absurd hmin hc
  · rw [if_neg hmin]
    have hn : ((toGrayFallback img).map List.length).sum =
        img.shape2.1 * img.shape2.2 := by
      rw [rowlen_sum _ _ hrows, hlen]
    rw [hn, if_neg (by positivity)]
    refine ⟨_, rfl, ?_, ?_, ?_⟩
    · intro row hr v hv
      rw [List.mem_map] at hr
      obtain ⟨r0, -, rfl⟩ := hr
      rw [List.mem_map] at hv
      obtain ⟨v0, -, rfl⟩ := hv
      split <;> simp
    · intro hc
      exact absurd hc hmin
    · intro _
      constructor
      · rw [List.length_map, hlen]
      · intro row hr
        rw [List.mem_map] at hr
        obtain ⟨r0, hr0, rfl⟩ := hr
        rw [List.length_map]
        exact hrows r0 hr0

/-- Witness for C7 on a concrete 2×2 gray image (shorter dimension below
400, so the output is 4×4). -/
theorem c7_fallback_totality_witness :
    PixArr.wf (PixArr.gray [[5, 200], [7, 9]]) ∧
    (∃ out, preprocess_image none (PixArr.gray [[5, 200], [7, 9]]) = some out ∧
      (∀ row ∈ out, ∀ v ∈ row, v = 0 ∨ v = 255) ∧
      (min (PixArr.gray [[5, 200], [7, 9]]).shape2.1
            (PixArr.gray [[5, 200], [7, 9]]).shape2.2 < 400 →
        out.length = 2 * (PixArr.gray [[5, 200], [7, 9]]).shape2.1 ∧
          ∀ row ∈ out, row.length = 2 * (PixArr.gray [[5, 200], [7, 9]]).shape2.2) ∧
      (¬ min (PixArr.gray [[5, 200], [7, 9]]).shape2.1
            (PixArr.gray [[5, 200], [7, 9]]).shape2.2 < 400 →
        out.length = (PixArr.gray [[5, 200], [7, 9]]).shape2.1 ∧
          ∀ row ∈ out, row.length = (PixArr.gray [[5, 200], [7, 9]]).shape2.2)) :=
  ⟨by decide, c7_fallback_totality (PixArr.gray [[5, 200], [7, 9]]) (by decide)⟩

/-! ### Claim C5 -/

/-- Adjacent-character relation: not both characters are whitespace. -/
def NoTwoWs (a b : Char) : Prop := ¬(isPySpace a = true ∧ isPySpace b = true)

instance : DecidableRel NoTwoWs := fun a b =>
  inferInstanceAs (Decidable (¬(isPySpace a = true ∧ isPySpace b = true)))

/-- A string is whitespace-collapsed when no two consecutive characters are
both whitespace. -/
def wsCollapsed (s : PyStr) : Prop := List.Chain' NoTwoWs s

instance : DecidablePred wsCollapsed := fun s =>
  inferInstanceAs (Decidable (List.Chain' NoTwoWs s))

theorem noTwoWs_of_left {a b : Char} (h : isPySpace a = false) : NoTwoWs a b :=
  fun hab => by rw [h] at hab; cases hab.1

theorem noTwoWs_of_right {a b : Char} (h : isPySpace b = false) : NoTwoWs a b :=
  fun hab => by rw [h] at hab; cases hab.2

theorem noTwoWs_symm {a b : Char} (h : NoTwoWs a b) : NoTwoWs b a :=
  fun hab => h ⟨hab.2, hab.1⟩

/-- Joint properties of the whitespace-collapsing worker: the output started
in skip mode begins with a non-space character, and the output is
whitespace-collapsed from either mode. -/
theorem collapseWsAux_spec (s : PyStr) :
    (∀ c, (collapseWsAux true s).head? = some c → isPySpace c = false) ∧
    (∀ b, List.Chain' NoTwoWs (collapseWsAux b s)) := by
  induction s with
  | nil =>
    exact ⟨(fun c h => nomatch h), (fun b => List.chain'_nil)⟩
  | cons c t ih =>
    obtain ⟨ihHead, ihChain⟩ := ih
    by_cases hc : isPySpace c = true
    · refine ⟨?_, ?_⟩
      · intro d hd
        rw [show collapseWsAux true (c :: t) = collapseWsAux true t by
          simp [collapseWsAux, hc]] at hd
        exact ihHead d hd
      · intro b
        cases b
        · rw [show collapseWsAux false (c :: t) = ' ' :: collapseWsAux true t by
            simp [collapseWsAux, hc]]
          refine (ihChain true).cons' ?_
          intro y hy
          exact noTwoWs_of_right (ihHead y hy)
        · rw [show collapseWsAux true (c :: t) = collapseWsAux true t by
            simp [collapseWsAux, hc]]
          exact ihChain true
    · have hc2 : isPySpace c = false := by
        cases hcc : isPySpace c
        · rfl
        · exact absurd hcc hc
      have hred : ∀ b, collapseWsAux b (c :: t) = c :: collapseWsAux false t := by
        intro b
        simp [collapseWsAux, hc2]
      refine ⟨?_, ?_⟩
      · intro d hd
        rw [hred true] at hd
        cases hd
        exact hc2
      · intro b
        rw [hred b]
        refine (ihChain false).cons' ?_
        intro y hy
        exact noTwoWs_of_left hc2

/-- Stripping preserves whitespace-collapsedness (the stripped string is a
reversed-suffix of a reversed-suffix). -/
theorem wsCollapsed_stripPy {s : PyStr} (h : wsCollapsed s) :
    wsCollapsed (stripPy s) := by
  unfold wsCollapsed stripPy rstripPy lstripPy at *
  have h1 : List.Chain' NoTwoWs (s.dropWhile isPySpace) :=
    h.suffix (List.dropWhile_suffix _)
  have h2 : List.Chain' (flip NoTwoWs) (s.dropWhile isPySpace) :=
    h1.imp (fun a b hab => noTwoWs_symm hab)
  have h3 : List.Chain' NoTwoWs (s.dropWhile isPySpace).reverse :=
    List.chain'_reverse.mpr h2
  have h4 : List.Chain' NoTwoWs
      ((s.dropWhile isPySpace).reverse.dropWhile isPySpace) :=
    h3.suffix (List.dropWhile_suffix _)
  have h5 : List.Chain' (flip NoTwoWs)
      ((s.dropWhile isPySpace).reverse.dropWhile isPySpace) :=
    h4.imp (fun a b hab => noTwoWs_symm hab)
  exact List.chain'_reverse.mpr h5

/-- Digit normalization preserves whitespace-collapsedness: the translation
map never turns a non-space character into a space. -/
theorem wsCollapsed_normalize_digits {s : PyStr} (h : wsCollapsed s) :
    wsCollapsed (normalize_digits s) := by
  unfold wsCollapsed normalize_digits at *
  rw [List.chain'_map]
  refine h.imp ?_
  intro a b hab hcon
  exact hab ⟨by rw [← isPySpace_digMap a]; exact hcon.1,
    by rw [← isPySpace_digMap b]; exact hcon.2⟩

/-- C5 counterexample: the Plain pipeline's `clean_text` replaces non-ASCII
runs by a space only after collapsing whitespace, so the raw text
`"a٠ b"` (with U+0660, a character NFKC leaves unchanged — it has no
decomposition — so `nfkc = id` on it) cleans to `"a  b"`, which contains two
consecutive spaces.  This refutes "for every pipeline result, clean_text is
whitespace-collapsed". -/
theorem c5_counterexample :
    (extract_text_from_image true false ['e', 'a', 's', 'y', 'o', 'c', 'r']
        [RawSpan.mk [(0, 0)] (("a٠ b").toList) (some 1)] [] id).clean_text =
      ("a  b").toList ∧
    ¬ wsCollapsed
      (extract_text_from_image true false ['e', 'a', 's', 'y', 'o', 'c', 'r']
        [RawSpan.mk [(0, 0)] (("a٠ b").toList) (some 1)] [] id).clean_text := by
  refine ⟨rfl, ?_⟩
  intro h
  rw [show (extract_text_from_image true false ['e', 'a', 's', 'y', 'o', 'c', 'r']
      [RawSpan.mk [(0, 0)] (("a٠ b").toList) (some 1)] [] id).clean_text =
      'a' :: ' ' :: ' ' :: ['b'] from rfl] at h
  rw [wsCollapsed, List.chain'_cons, List.chain'_cons] at h
  exact h.2.1 ⟨rfl, rfl⟩

/-- C5 amended: `clean_text` is whitespace-collapsed for the WhatsApp-aware
pipeline, and for the Urdu-aware pipeline whenever the detected language is
not Urdu (otherwise the external shaping transform, with no such guarantee,
is interposed); the Plain pipeline's `clean_text` can contain consecutive
whitespace when a non-ASCII run adjacent to a space is replaced. -/
theorem c5_amended (ea : Bool) (inp : ImgInput) (mc : ℚ)
    (outs : List RegionOutcome) (dl : PyStr) (sf : PyStr → PyStr)
    (rW rU : OCRResult)
    (hW : extract_text_whatsapp_aware ea inp mc outs = .ok rW)
    (hU : extract_text_with_urdu_support ea inp mc outs dl sf = .ok rU)
    (hdl : ¬ dl = ['u', 'r']) :
    wsCollapsed rW.clean_text ∧ wsCollapsed rU.clean_text := by
  obtain ⟨-, hrW⟩ := whatsapp_ok hW
  obtain ⟨-, hrU⟩ := urdu_ok hU
  subst hrW
  subst hrU
  constructor
  · exact wsCollapsed_stripPy ((collapseWsAux_spec _).2 false)
  · dsimp only
    rw [if_neg hdl]
    exact wsCollapsed_normalize_digits
      (wsCollapsed_stripPy ((collapseWsAux_spec _).2 false))

/-- Witness for C5 amended at a concrete run of both pipelines. -/
theorem c5_amended_witness :
    extract_text_whatsapp_aware true (ImgInput.path [[(1, 2, 3)]]) 0
        [RegionOutcome.fallbackText [['o', 'k']]] =
      Except.ok (OCRResult.mk none ['o', 'k'] ['o', 'k']
        [OutSpan.mk none ['o', 'k'] none] (Fields.mk [] [] [] [])) ∧
    extract_text_with_urdu_support true (ImgInput.path [[(1, 2, 3)]]) 0
        [RegionOutcome.fallbackText [['o', 'k']]] ['e', 'n'] id =
      Except.ok (OCRResult.mk (some ['e', 'n']) ['o', 'k'] ['o', 'k']
        [OutSpan.mk none ['o', 'k'] none] (Fields.mk [] [] [] [])) ∧
    ¬ (['e', 'n'] : PyStr) = ['u', 'r'] ∧
    (wsCollapsed (OCRResult.mk none ['o', 'k'] ['o', 'k']
        [OutSpan.mk none ['o', 'k'] none] (Fields.mk [] [] [] [])).clean_text ∧
      wsCollapsed (OCRResult.mk (some ['e', 'n']) ['o', 'k'] ['o', 'k']
        [OutSpan.mk none ['o', 'k'] none] (Fields.mk [] [] [] [])).clean_text) :=
  ⟨rfl, rfl, by decide,
    c5_amended true (ImgInput.path [[(1, 2, 3)]]) 0
      [RegionOutcome.fallbackText [['o', 'k']]] ['e', 'n'] id _ _ rfl rfl
      (by decide)⟩

/-! ### Claim C6 -/

/-- The WhatsApp-aware pipeline reports `RecognitionUnavailable` only when
the recognizer could not be obtained (easyocr unavailable); with the engine
available the error never occurs (invalid input raises
`UnsupportedInputKind` instead). -/
theorem whatsapp_recogErr_imp {ea : Bool} {inp : ImgInput} {mc : ℚ}
    {outs : List RegionOutcome}
    (h : extract_text_whatsapp_aware ea inp mc outs =
      .error .recognitionUnavailable) : ea = false := by
  cases ea
  · rfl
  · exfalso
    unfold extract_text_whatsapp_aware at h
    cases hL : loadImageW inp with
    | error e =>
      rw [hL] at h
      cases inp with
      | path m => simp [loadImageW] at hL
      | pil m => simp [loadImageW] at hL
      | array a => simp [loadImageW] at hL
      | other =>
        simp only [loadImageW, Except.error.injEq] at hL
        rw [← hL] at h
        simp at h
    | ok img =>
      rw [hL] at h
      simp at h

/-- The Urdu-aware pipeline reports `RecognitionUnavailable` only when the
recognizer could not be obtained. -/
theorem urdu_recogErr_imp {ea : Bool} {inp : ImgInput} {mc : ℚ}
    {outs : List RegionOutcome} {dl : PyStr} {sf : PyStr → PyStr}
    (h : extract_text_with_urdu_support ea inp mc outs dl sf =
      .error .recognitionUnavailable) : ea = false := by
  cases ea
  · rfl
  · exfalso
    unfold extract_text_with_urdu_support at h
    cases hL : loadImageU inp with
    | error e =>
      rw [hL] at h
      cases inp with
      | path m => simp [loadImageU] at hL
      | pil m => simp [loadImageU] at hL
      | array a => simp [loadImageU] at hL
      | other =>
        simp only [loadImageU, Except.error.injEq] at hL
        rw [← hL] at h
        simp at h
    | ok img =>
      rw [hL] at h
      simp at h

/-- C6: when the recognizer cannot be obtained (easyocr unavailable), the
region-aware and Urdu-aware pipelines fail with `RecognitionUnavailable`
(for every supported input kind), and this is the only condition under which
they raise that error; the plain pipeline instead degrades, returning a
result whose `raw_text` is empty when no recognition engine is available at
all. -/
theorem c6_recognition_unavailable (inp : ImgInput) (mc : ℚ)
    (outs : List RegionOutcome) (dl : PyStr) (sf : PyStr → PyStr)
    (engine : PyStr) (easyResults : List RawSpan) (tessRaw : PyStr)
    (nfkc : PyStr → PyStr) :
    (inp ≠ ImgInput.other →
      extract_text_whatsapp_aware false inp mc outs =
          .error .recognitionUnavailable ∧
        extract_text_with_urdu_support false inp mc outs dl sf =
          .error .recognitionUnavailable) ∧
    extract_text_whatsapp_aware true inp mc outs ≠
      .error .recognitionUnavailable ∧
    extract_text_with_urdu_support true inp mc outs dl sf ≠
      .error .recognitionUnavailable ∧
    (extract_text_from_image false false engine easyResults tessRaw
        nfkc).raw_text = [] := by
  refine ⟨?_, ?_, ?_, ?_⟩
  · intro hne
    cases inp with
    | path m => exact ⟨rfl, rfl⟩
    | pil m => exact ⟨rfl, rfl⟩
    | array a => exact ⟨rfl, rfl⟩
    | other => exact absurd rfl hne
  · intro h
    cases whatsapp_recogErr_imp h
  · intro h
    cases urdu_recogErr_imp h
  · unfold extract_text_from_image
    dsimp only
    simp only [Bool.and_false, Bool.false_eq_true, if_false]

/-- Witness for C6 at a concrete supported input. -/
theorem c6_recognition_unavailable_witness :
    extract_text_whatsapp_aware false (ImgInput.pil [[(1, 2, 3)]]) 0 [] =
      .error .recognitionUnavailable ∧
    extract_text_with_urdu_support false (ImgInput.pil [[(1, 2, 3)]]) 0 []
        ['e', 'n'] id = .error .recognitionUnavailable ∧
    (extract_text_from_image false false ['e', 'a', 's', 'y', 'o', 'c', 'r']
        [] [] id).raw_text = [] :=
  ⟨((c6_recognition_unavailable (ImgInput.pil [[(1, 2, 3)]]) 0 [] ['e', 'n'] id
      ['e', 'a', 's', 'y', 'o', 'c', 'r'] [] [] id).1 (by decide)).1,
   ((c6_recognition_unavailable (ImgInput.pil [[(1, 2, 3)]]) 0 [] ['e', 'n'] id
      ['e', 'a', 's', 'y', 'o', 'c', 'r'] [] [] id).1 (by decide)).2,
   (c6_recognition_unavailable (ImgInput.pil [[(1, 2, 3)]]) 0 [] ['e', 'n'] id
      ['e', 'a', 's', 'y', 'o', 'c', 'r'] [] [] id).2.2.2⟩

/-! ### Claim C2 -/

/-- C2 counterexample: on the spec's literal clean text, the greedy phone
pattern `\+?\d[\d\s\-]{5,}` also consumes the space after the last digit (a
space is in the character class `[\d\s\-]`), so the extracted phone string is
`"+92 300 1234567 "` with a trailing space; the exact string
`"+92 300 1234567"` is not among the extracted phones of either field
extractor. -/
theorem c2_counterexample :
    (extract_fields_whatsapp (("Call +92 300 1234567 or email scam@fraud.com, send Rs. 5,000 via www.fakepay.com").toList)).phones =
      [("+92 300 1234567 ").toList] ∧
    ("+92 300 1234567").toList ∉
      (extract_fields_whatsapp (("Call +92 300 1234567 or email scam@fraud.com, send Rs. 5,000 via www.fakepay.com").toList)).phones ∧
    ("+92 300 1234567").toList ∉
      (extract_fields_urdu (("Call +92 300 1234567 or email scam@fraud.com, send Rs. 5,000 via www.fakepay.com").toList)).phones := by
  refine ⟨by decide, by decide, by decide⟩

/-- C2 amended: on the literal clean text, phones contains
`"+92 300 1234567 "` (with a trailing space — forced by the greedy character
class), emails contains `"scam@fraud.com"`, urls contains
`"www.fakepay.com"`, and amounts contains `"Rs. 5,000"`; this holds for the
field extraction of both region-aware pipelines. -/
theorem c2_amended :
    (("+92 300 1234567 ").toList ∈
        (extract_fields_whatsapp (("Call +92 300 1234567 or email scam@fraud.com, send Rs. 5,000 via www.fakepay.com").toList)).phones ∧
      ("scam@fraud.com").toList ∈
        (extract_fields_whatsapp (("Call +92 300 1234567 or email scam@fraud.com, send Rs. 5,000 via www.fakepay.com").toList)).emails ∧
      ("www.fakepay.com").toList ∈
        (extract_fields_whatsapp (("Call +92 300 1234567 or email scam@fraud.com, send Rs. 5,000 via www.fakepay.com").toList)).urls ∧
      ("Rs. 5,000").toList ∈
        (extract_fields_whatsapp (("Call +92 300 1234567 or email scam@fraud.com, send Rs. 5,000 via www.fakepay.com").toList)).amounts) ∧
    (("+92 300 1234567 ").toList ∈
        (extract_fields_urdu (("Call +92 300 1234567 or email scam@fraud.com, send Rs. 5,000 via www.fakepay.com").toList)).phones ∧
      ("scam@fraud.com").toList ∈
        (extract_fields_urdu (("Call +92 300 1234567 or email scam@fraud.com, send Rs. 5,000 via www.fakepay.com").toList)).emails ∧
      ("www.fakepay.com").toList ∈
        (extract_fields_urdu (("Call +92 300 1234567 or email scam@fraud.com, send Rs. 5,000 via www.fakepay.com").toList)).urls ∧
      ("Rs. 5,000").toList ∈
        (extract_fields_urdu (("Call +92 300 1234567 or email scam@fraud.com, send Rs. 5,000 via www.fakepay.com").toList)).amounts) := by
  refine ⟨⟨?_, ?_, ?_, ?_⟩, ⟨?_, ?_, ?_, ?_⟩⟩ <;> decide
